import Mathlib

/-!
Verification of the agentic-jobhunt pipeline: a shallow embedding of the
resume-scoring loop (src/agents/resume_matcher.py), the tracking store
(src/memory/job_store.py), the agent tracker tools
(src/app_agents/tracker.py, src/agents/tracker.py), the outreach stage
(src/app_agents/outreach.py) and the orchestrator boundary
(src/app_agents/orchestrator.py, src/agents/orchestrator.py).

Modelling conventions:
* Python dicts are association lists over string keys (`Dict`); JSON numbers
  are modelled as `Int` (a non-numeric `match_score` would be a `TypeError`
  in the Python comparison and is outside the modelled value space).
* `datetime` values are `Int` seconds; `timedelta.days` is floor division
  by 86400 (`Int.fdiv`, matching Python floor semantics).
* External effects (the LLM scoring oracle, JSON parsing, retrieval, the
  agent runners) enter as function parameters, so every definition is an
  executable pure function of its inputs.
* Python `sorted(..., key=k, reverse=True)` and `list.sort` are stable; a
  stable sort is extensionally determined by the key order, so they are
  modelled by `List.insertionSort` on the flipped key order.
-/

namespace JobHunt

/-- Values of the JSON/dict universe used by the pipeline. -/
inductive PyVal where
  | str : String → PyVal
  | int : Int → PyVal
  | list : List PyVal → PyVal
deriving Repr

/-- A Python dict: association list over string keys (insertion-ordered). -/
abbrev Dict := List (String × PyVal)

/-- Model of `d.get(k)` / `d[k]`: the first binding for key `k`. -/
def dictGet (d : Dict) (k : String) : Option PyVal :=
  (d.find? (fun kv => kv.1 == k)).map (fun kv => kv.2)

/-- Model of Python `{**a, **b}`: keys of `a` keep their position with
values overridden by `b`; keys only in `b` are appended. -/
def dictMerge (a b : Dict) : Dict :=
  a.map (fun kv => (kv.1, (dictGet b kv.1).getD kv.2))
    ++ b.filter (fun kv => (dictGet a kv.1).isNone)

/-- Filtering by a weaker predicate does not change the first match. -/
theorem find?_filter_of_imp {α : Type} (p q : α → Bool) (l : List α)
    (h : ∀ x, p x = true → q x = true) :
    (l.filter q).find? p = l.find? p := by
  induction l with
  | nil => rfl
  | cons x l ih =>
    by_cases hq : q x
    · rw [List.filter_cons_of_pos hq]
      by_cases hp : p x
      · rw [List.find?_cons_of_pos _ hp, List.find?_cons_of_pos _ hp]
      · rw [List.find?_cons_of_neg _ hp, List.find?_cons_of_neg _ hp, ih]
    · have hp : ¬ p x = true := fun hp => hq (h x hp)
      rw [List.filter_cons_of_neg hq, List.find?_cons_of_neg _ hp, ih]

/-- Lookup in a merged dict: the right dict wins, exactly as in Python. -/
theorem dictGet_merge (a b : Dict) (k : String) :
    dictGet (dictMerge a b) k = (dictGet b k).or (dictGet a k) := by
  have hcomp :
      (fun kv : String × PyVal => kv.1 == k) ∘
        (fun kv : String × PyVal => (kv.1, (dictGet b kv.1).getD kv.2)) =
      (fun kv : String × PyVal => kv.1 == k) := rfl
  unfold dictMerge
  rw [show dictGet
        (a.map (fun kv => (kv.1, (dictGet b kv.1).getD kv.2))
          ++ b.filter (fun kv => (dictGet a kv.1).isNone)) k =
      (((a.map (fun kv => (kv.1, (dictGet b kv.1).getD kv.2))).find?
          (fun kv => kv.1 == k)).or
        ((b.filter (fun kv => (dictGet a kv.1).isNone)).find?
          (fun kv => kv.1 == k))).map (fun kv => kv.2)
    from by rw [dictGet, List.find?_append]]
  rw [List.find?_map, hcomp]
  cases ha : a.find? (fun kv => kv.1 == k) with
  | none =>
    have hga : dictGet a k = none := by rw [dictGet, ha]; rfl
    have himp : ∀ x : String × PyVal,
        (x.1 == k) = true → (dictGet a x.1).isNone = true := by
      intro x hx
      rw [beq_iff_eq.mp hx, hga]
      rfl
    rw [find?_filter_of_imp _ _ _ himp]
    rw [hga]
    cases hb : b.find? (fun kv => kv.1 == k) <;> simp [dictGet, hb]
  | some kv =>
    have hpk := List.find?_some ha
    have hk : kv.1 = k := by simpa using hpk
    have hga : dictGet a k = some kv.2 := by rw [dictGet, ha]; rfl
    rw [hga]
    cases hb : dictGet b k with
    | none => simp [hb, hk]
    | some v => simp [hb, hk]

/-! Stable descending sort on an integer key, the model of Python
`sorted(..., key=k, reverse=True)` and `list.sort(key=k, reverse=True)`
(both stable; a stable sort is extensionally determined by the key order,
so insertion sort on the flipped key order computes the same list). -/

/-- Flipped key order underlying a descending sort. -/
def keyDesc {α : Type} (k : α → Int) : α → α → Prop := fun a b => k b ≤ k a

instance {α : Type} (k : α → Int) : DecidableRel (keyDesc k) :=
  fun a b => inferInstanceAs (Decidable (k b ≤ k a))

instance {α : Type} (k : α → Int) : IsTotal α (keyDesc k) :=
  ⟨fun a b => le_total (k b) (k a)⟩

instance {α : Type} (k : α → Int) : IsTrans α (keyDesc k) :=
  ⟨fun _ _ _ h1 h2 => le_trans h2 h1⟩

/-- Stable sort, descending on the key `k`. -/
def sortDesc {α : Type} (k : α → Int) (l : List α) : List α :=
  List.insertionSort (keyDesc k) l

theorem sortDesc_perm {α : Type} (k : α → Int) (l : List α) :
    (sortDesc k l).Perm l :=
  List.perm_insertionSort _ _

theorem sortDesc_mem {α : Type} (k : α → Int) (l : List α) (a : α) :
    a ∈ sortDesc k l ↔ a ∈ l :=
  List.mem_insertionSort _

theorem sortDesc_sorted {α : Type} (k : α → Int) (l : List α) :
    (sortDesc k l).Pairwise (keyDesc k) :=
  List.sorted_insertionSort _ _

theorem filterKey_orderedInsert {α : Type} (k : α → Int) (c : Int) (a : α)
    (l : List α) :
    (List.orderedInsert (keyDesc k) a l).filter (fun x => k x == c) =
      if k a == c then a :: l.filter (fun x => k x == c)
      else l.filter (fun x => k x == c) := by
  induction l with
  | nil =>
    by_cases hac : k a == c <;> simp [List.orderedInsert, List.filter, hac]
  | cons b l ih =>
    simp only [List.orderedInsert]
    by_cases hr : keyDesc k a b
    · rw [if_pos hr]
      by_cases hac : k a == c <;> by_cases hbc : k b == c <;>
        simp [List.filter_cons, hac, hbc]
    · rw [if_neg hr]
      have hlt : k a < k b := not_le.mp hr
      by_cases hbc : k b == c
      · have hac : ¬ (k a == c) = true := by
          intro h
          have h1 : k a = c := beq_iff_eq.mp h
          have h2 : k b = c := beq_iff_eq.mp hbc
          rw [h1, h2] at hlt
          exact lt_irrefl c hlt
        simp [List.filter_cons, hbc, hac, ih]
      · simp only [List.filter_cons, hbc, cond_false, ih]
        by_cases hac : k a == c <;> simp [hac, List.filter_cons, hbc]

/-- Stability of the descending sort: the elements at any fixed key value
keep their original relative order. -/
theorem sortDesc_filter_key {α : Type} (k : α → Int) (c : Int) (l : List α) :
    (sortDesc k l).filter (fun x => k x == c) = l.filter (fun x => k x == c) := by
  induction l with
  | nil => rfl
  | cons a l ih =>
    show (List.orderedInsert (keyDesc k) a (List.insertionSort (keyDesc k) l)).filter _ = _
    rw [filterKey_orderedInsert]
    show (if k a == c then a :: (sortDesc k l).filter (fun x => k x == c)
          else (sortDesc k l).filter (fun x => k x == c)) = _
    rw [ih]
    by_cases hac : k a == c <;> simp [List.filter_cons, hac]

/-! Scoring loop: src/agents/resume_matcher.py. -/

/-- State carried by the LangGraph matcher (`MatcherState` TypedDict). -/
structure MatcherState where
  resume_text : String
  job_descriptions : List Dict
  resume_chunks : List String
  scored_jobs : List Dict
  current_job_index : Nat
  final_results : List Dict
deriving Repr

/-- Fallback analysis built in the `except json.JSONDecodeError` branch of
score_job: match_score 50, recommendation Consider, raw oracle output. -/
def fallbackAnalysis (content : String) : Dict :=
  [("match_score", PyVal.int 50), ("recommendation", PyVal.str ("Consider")),
   ("raw", PyVal.str content)]

/-- Scoring of one job: the analysis dict merged over the job dict
(`scored_job = {**job, **analysis}`). `p` models `json.loads` (returning
`none` on JSONDecodeError) and `o` maps a job to the oracle response text
for the prompt built from the retrieved resume context and the job
description (the resume is fixed for the run). -/
def scoredOf (p : String → Option Dict) (o : Dict → String) (job : Dict) : Dict :=
  let content := o job
  let analysis :=
    match p content with
    | some a => a
    | none => fallbackAnalysis content
  dictMerge job analysis

/-- Node 2 of the graph (score_job): scores the job under the cursor and
advances the cursor. `none` models the IndexError raised by
`state["job_descriptions"][idx]` when the cursor is out of range. -/
def score_job (p : String → Option Dict) (o : Dict → String) (s : MatcherState) :
    Option MatcherState :=
  match s.job_descriptions[s.current_job_index]? with
  | none => none
  | some job =>
      some { s with
        scored_jobs := s.scored_jobs ++ [scoredOf p o job],
        current_job_index := s.current_job_index + 1 }

/-- Conditional edge should_continue_scoring. -/
def should_continue_scoring (s : MatcherState) : String :=
  if s.current_job_index < s.job_descriptions.length then ("score_job")
  else ("compile_results")

/-- Score read in compile_results: `j.get("match_score", 0)`. -/
def getScoreD (j : Dict) : Int :=
  match dictGet j ("match_score") with
  | some (PyVal.int n) => n
  | some _ => 0
  | none => 0

/-- Node 3 (compile_results): keep scored jobs with match_score ≥ 60 and
sort them descending by match_score (Python `sorted` is stable). -/
def compile_results (s : MatcherState) : MatcherState :=
  let filtered := s.scored_jobs.filter (fun j => decide (60 ≤ getScoreD j))
  { s with final_results := sortDesc getScoreD filtered }

/-- The score_job / should_continue_scoring cycle of the compiled graph:
run score_job, then repeat while the conditional edge answers "score_job".
Fuel bounds the recursion; the graph wrapper passes enough for any input. -/
def scoring_loop (p : String → Option Dict) (o : Dict → String) :
    Nat → MatcherState → Option MatcherState
  | 0, _ => none
  | fuel + 1, s =>
      match score_job p o s with
      | none => none
      | some s2 =>
          if should_continue_scoring s2 == "score_job" then scoring_loop p o fuel s2
          else some s2

/-- Initial state built by run_resume_matcher. -/
def initial_state (jobs : List Dict) : MatcherState :=
  { resume_text := "", job_descriptions := jobs, resume_chunks := [],
    scored_jobs := [], current_job_index := 0, final_results := [] }

/-- Node 1 (load_resume), abstracted over the external resume file: writes
resume_text and resume_chunks into the state. -/
def load_resume (resume_text : String) (chunks : List String) (s : MatcherState) :
    MatcherState :=
  { s with resume_text := resume_text, resume_chunks := chunks }

/-- The compiled matcher graph: entry load_resume, an unconditional edge
into score_job, the scoring cycle, then compile_results. `none` models an
uncaught exception (IndexError) escaping graph.invoke. -/
def run_matcher_graph (p : String → Option Dict) (o : Dict → String)
    (resume_text : String) (chunks : List String) (jobs : List Dict) :
    Option MatcherState :=
  let s1 := load_resume resume_text chunks (initial_state jobs)
  match scoring_loop p o (jobs.length + 1) s1 with
  | none => none
  | some s2 => some (compile_results s2)

/-- Completion invariant of the scoring cycle: whenever the loop terminates
normally (the conditional edge answered "compile_results"), the cursor is at
the end and the scored jobs extend the incoming accumulator with one scored
record per remaining input job, in input order. -/
theorem scoring_loop_spec (p : String → Option Dict) (o : Dict → String) :
    ∀ (fuel : Nat) (s s' : MatcherState),
      scoring_loop p o fuel s = some s' →
      s'.job_descriptions = s.job_descriptions ∧
      s'.current_job_index = s.job_descriptions.length ∧
      s'.scored_jobs =
        s.scored_jobs ++
          ((s.job_descriptions.drop s.current_job_index).map (scoredOf p o)) := by
  intro fuel
  induction fuel with
  | zero => intro s s' h; exact absurd h (by simp [scoring_loop])
  | succ fuel ih =>
    intro s s' h
    simp only [scoring_loop, score_job] at h
    cases hj : s.job_descriptions[s.current_job_index]? with
    | none => rw [hj] at h; exact absurd h (by simp)
    | some job =>
      rw [hj] at h
      simp only [Option.some.injEq] at h
      have hidx : s.current_job_index < s.job_descriptions.length :=
        List.getElem?_eq_some_iff.mp hj |>.1
      have hdrop : s.job_descriptions.drop s.current_job_index =
          s.job_descriptions[s.current_job_index] ::
            s.job_descriptions.drop (s.current_job_index + 1) :=
        List.drop_eq_getElem_cons hidx
      have hgot : s.job_descriptions[s.current_job_index] = job :=
        List.getElem?_eq_some_iff.mp hj |>.2
      by_cases hc : s.current_job_index + 1 < s.job_descriptions.length
      · have hcond : should_continue_scoring
            { s with
              scored_jobs := s.scored_jobs ++ [scoredOf p o job],
              current_job_index := s.current_job_index + 1 } = "score_job" := by
          simp [should_continue_scoring, hc]
        rw [if_pos (by rw [hcond]; rfl)] at h
        obtain ⟨h1, h2, h3⟩ := ih _ _ h
        refine ⟨h1, by simpa using h2, ?_⟩
        rw [h3]
        simp only [hdrop, hgot, List.map_cons]
        simp
      · have hcond : should_continue_scoring
            { s with
              scored_jobs := s.scored_jobs ++ [scoredOf p o job],
              current_job_index := s.current_job_index + 1 } = "compile_results" := by
          simp [should_continue_scoring, hc]
        rw [if_neg (by rw [hcond]; simp)] at h
        have hlen : s.current_job_index + 1 = s.job_descriptions.length := by
          omega
        have hdrop2 : s.job_descriptions.drop (s.current_job_index + 1) = [] := by
          rw [hlen]; simp
        cases h
        refine ⟨rfl, by simpa using hlen, ?_⟩
        simp only [hdrop, hgot, hdrop2, List.map_cons, List.map_nil]

/-- Any completed graph run carries one scored record per input job, in
input order: the scored_jobs of the final state are exactly the input jobs
mapped through the per-job scoring step. -/
theorem run_matcher_graph_scored_eq (p : String → Option Dict) (o : Dict → String)
    (rt : String) (chunks : List String) (jobs : List Dict) (s' : MatcherState)
    (h : run_matcher_graph p o rt chunks jobs = some s') :
    s'.scored_jobs = jobs.map (scoredOf p o) := by
  simp only [run_matcher_graph] at h
  cases hl : scoring_loop p o (jobs.length + 1) (load_resume rt chunks (initial_state jobs)) with
  | none => rw [hl] at h; cases h
  | some s2 =>
    rw [hl] at h
    simp only [Option.some.injEq] at h
    obtain ⟨_, _, h3⟩ := scoring_loop_spec p o _ _ _ hl
    have hpres : s'.scored_jobs = s2.scored_jobs := by
      rw [← h]; rfl
    rw [hpres, h3]
    simp [load_resume, initial_state]

/-- C1: for every input list job_descriptions, when the Scoring Loop
completes (the cursor reaches the end and the graph transitions to
compile_results), scored_jobs contains exactly one scored record per input
job — its length equals the input count, with no loss and no duplication —
and its order is the input order (it is the input list mapped through the
per-job scoring step), not score order. -/
theorem scoring_loop_scores_all_jobs_in_input_order
    (p : String → Option Dict) (o : Dict → String) (rt : String)
    (chunks : List String) (jobs : List Dict) (s' : MatcherState)
    (hrun : run_matcher_graph p o rt chunks jobs = some s') :
    s'.scored_jobs = jobs.map (scoredOf p o) ∧
    s'.scored_jobs.length = jobs.length := by
  have h := run_matcher_graph_scored_eq p o rt chunks jobs s' hrun
  exact ⟨h, by rw [h]; simp⟩

/-- Concrete jobs used to exercise the matcher model. -/
def jobA : Dict :=
  [("title", PyVal.str ("EM")), ("company", PyVal.str ("Freshworks")),
   ("description", PyVal.str ("golang"))]

def jobB : Dict :=
  [("title", PyVal.str ("EM")), ("company", PyVal.str ("Chargebee")),
   ("description", PyVal.str ("ruby"))]

/-- Concrete parse model: only the oracle output "golang" parses. -/
def parseGolangOnly : String → Option Dict := fun c =>
  if c == "golang" then
    some [("match_score", PyVal.int 85), ("recommendation", PyVal.str ("Apply"))]
  else none

/-- Concrete oracle model: echoes the job description. -/
def echoOracle : Dict → String := fun j =>
  match dictGet j ("description") with
  | some (PyVal.str d) => d
  | _ => ""

/-- Final state of the concrete two-job run. -/
def finalAB : MatcherState :=
  (run_matcher_graph parseGolangOnly echoOracle ("r") [] [jobA, jobB]).getD
    (initial_state [])

/-- Witness for C1 at a concrete two-job input. -/
theorem scoring_loop_scores_all_jobs_in_input_order_witness :
    run_matcher_graph parseGolangOnly echoOracle ("r") [] [jobA, jobB] = some finalAB ∧
    finalAB.scored_jobs = [jobA, jobB].map (scoredOf parseGolangOnly echoOracle) ∧
    finalAB.scored_jobs.length = 2 :=
  ⟨rfl,
   (scoring_loop_scores_all_jobs_in_input_order parseGolangOnly echoOracle
      ("r") [] [jobA, jobB] finalAB rfl).1,
   (scoring_loop_scores_all_jobs_in_input_order parseGolangOnly echoOracle
      ("r") [] [jobA, jobB] finalAB rfl).2⟩

/-- C2: a job whose oracle response fails to parse does not abort the loop:
on a completed run its record is the fallback (match_score 50,
recommendation Consider) merged over the job, with the raw oracle output
preserved under key "raw", while every other job receives its real scored
result, computed from its own oracle response alone. -/
theorem parse_failure_falls_back_and_leaves_other_jobs_intact
    (p : String → Option Dict) (o : Dict → String) (rt : String)
    (chunks : List String) (jobs : List Dict) (s' : MatcherState)
    (i : Nat) (job : Dict)
    (hrun : run_matcher_graph p o rt chunks jobs = some s')
    (hjob : jobs[i]? = some job)
    (hfail : p (o job) = none) :
    s'.scored_jobs[i]? = some (dictMerge job (fallbackAnalysis (o job))) ∧
    dictGet (dictMerge job (fallbackAnalysis (o job))) ("match_score")
      = some (PyVal.int 50) ∧
    dictGet (dictMerge job (fallbackAnalysis (o job))) ("recommendation")
      = some (PyVal.str ("Consider")) ∧
    dictGet (dictMerge job (fallbackAnalysis (o job))) ("raw")
      = some (PyVal.str (o job)) ∧
    (∀ (j : Nat) (jobj : Dict), j ≠ i → jobs[j]? = some jobj →
      s'.scored_jobs[j]? = some (scoredOf p o jobj)) := by
  have hsc := run_matcher_graph_scored_eq p o rt chunks jobs s' hrun
  have hfallback : scoredOf p o job = dictMerge job (fallbackAnalysis (o job)) := by
    simp [scoredOf, hfail]
  refine ⟨?_, ?_, ?_, ?_, ?_⟩
  · rw [hsc, List.getElem?_map, hjob]
    simp [hfallback]
  · rw [dictGet_merge]; rfl
  · rw [dictGet_merge]; rfl
  · rw [dictGet_merge]; rfl
  · intro j jobj _ hjobj
    rw [hsc, List.getElem?_map, hjobj]
    rfl

/-- Witness for C2: in the concrete two-job run the second job's oracle
output does not parse, yielding the fallback record while the first job
keeps its real result. -/
theorem parse_failure_falls_back_witness :
    finalAB.scored_jobs[1]? =
      some (dictMerge jobB (fallbackAnalysis (echoOracle jobB))) ∧
    dictGet (dictMerge jobB (fallbackAnalysis (echoOracle jobB))) ("match_score")
      = some (PyVal.int 50) ∧
    finalAB.scored_jobs[0]? = some (scoredOf parseGolangOnly echoOracle jobA) :=
  ⟨(parse_failure_falls_back_and_leaves_other_jobs_intact parseGolangOnly echoOracle
      ("r") [] [jobA, jobB] finalAB 1 jobB rfl rfl rfl).1,
   (parse_failure_falls_back_and_leaves_other_jobs_intact parseGolangOnly echoOracle
      ("r") [] [jobA, jobB] finalAB 1 jobB rfl rfl rfl).2.1,
   (parse_failure_falls_back_and_leaves_other_jobs_intact parseGolangOnly echoOracle
      ("r") [] [jobA, jobB] finalAB 1 jobB rfl rfl rfl).2.2.2.2 0 jobA
      (by decide) rfl⟩

/-- C5: the Filter/Rank stage (compile_results) is a pure function of
scored_jobs: every output record has match_score ≥ 60, the output is
non-increasing in match_score, records with equal scores keep their
original relative order (stable sort), and the output depends on nothing
but scored_jobs. -/
theorem compile_results_filters_and_sorts_stably (s : MatcherState) :
    (∀ j ∈ (compile_results s).final_results, 60 ≤ getScoreD j) ∧
    (compile_results s).final_results.Pairwise
      (fun a b => getScoreD b ≤ getScoreD a) ∧
    (∀ c : Int,
      (compile_results s).final_results.filter (fun j => getScoreD j == c) =
        s.scored_jobs.filter
          (fun j => decide (60 ≤ getScoreD j) && (getScoreD j == c))) ∧
    (∀ s2 : MatcherState, s2.scored_jobs = s.scored_jobs →
      (compile_results s2).final_results = (compile_results s).final_results) := by
  refine ⟨?_, ?_, ?_, ?_⟩
  · intro j hj
    have hmem : j ∈ s.scored_jobs.filter (fun j => decide (60 ≤ getScoreD j)) :=
      (sortDesc_mem _ _ _).mp hj
    have := List.of_mem_filter hmem
    exact of_decide_eq_true this
  · exact sortDesc_sorted _ _
  · intro c
    have h := sortDesc_filter_key getScoreD c
      (s.scored_jobs.filter (fun j => decide (60 ≤ getScoreD j)))
    show (sortDesc getScoreD
        (s.scored_jobs.filter (fun j => decide (60 ≤ getScoreD j)))).filter
          (fun j => getScoreD j == c) = _
    rw [h, List.filter_filter]
    congr 1
    funext j
    exact Bool.and_comm _ _
  · intro s2 h2
    show sortDesc getScoreD (s2.scored_jobs.filter _) = sortDesc getScoreD (s.scored_jobs.filter _)
    rw [h2]

/-- Concrete scored jobs exercising the Filter/Rank stage. -/
def sjHigh : Dict := [("company", PyVal.str ("A")), ("match_score", PyVal.int 85)]

def sjLow : Dict := [("company", PyVal.str ("B")), ("match_score", PyVal.int 45)]

def sjMid : Dict := [("company", PyVal.str ("C")), ("match_score", PyVal.int 72)]

def stScored : MatcherState :=
  { initial_state [] with scored_jobs := [sjHigh, sjLow, sjMid] }

/-- Witness for C5 on a concrete three-job scored state. -/
theorem compile_results_filters_and_sorts_stably_witness :
    (compile_results stScored).final_results.Pairwise
      (fun a b => getScoreD b ≤ getScoreD a) ∧
    (compile_results stScored).final_results.filter
        (fun j => getScoreD j == (85 : Int)) =
      stScored.scored_jobs.filter
        (fun j => decide (60 ≤ getScoreD j) && (getScoreD j == (85 : Int))) :=
  ⟨(compile_results_filters_and_sorts_stably stScored).2.1,
   (compile_results_filters_and_sorts_stably stScored).2.2.1 85⟩

/-! Outreach stage: src/app_agents/outreach.py. -/

/-- One element of the outreach list built by run_outreach. -/
structure OutreachEntry where
  company : Option PyVal
  title : Option PyVal
  url : Option PyVal
  match_score : Option PyVal
  outreach_content : String
deriving Repr

/-- Return shape of run_outreach. -/
structure OutreachResult where
  outreach : List OutreachEntry
  total_drafted : Nat
deriving Repr

/-- Model of run_outreach: empty input short-circuits to an empty result;
otherwise one agent run over the first five jobs produces a single
final_output text (`finalOutput` parameter abstracting Runner.run), and the
output list carries one entry per job in matched_jobs[:5], each holding
that same text as outreach_content. candidate_name is accepted and unused,
as in the source. -/
def run_outreach (matched_jobs : List Dict) (_candidate_name : String)
    (finalOutput : String) : OutreachResult :=
  if matched_jobs.isEmpty then { outreach := [], total_drafted := 0 }
  else
    let entries := (matched_jobs.take 5).map (fun j =>
      { company := dictGet j ("company"), title := dictGet j ("title"),
        url := dictGet j ("url"), match_score := dictGet j ("match_score"),
        outreach_content := finalOutput : OutreachEntry })
    { outreach := entries, total_drafted := entries.length }

/-! Tracker stage entry point: src/app_agents/tracker.py, run_tracker. -/

/-- Return shape of run_tracker. -/
structure TrackerResult where
  logged : Nat
  summary : String
deriving Repr

/-- Model of run_tracker: empty input short-circuits; otherwise the agent
is invoked over jobs[:10] and the reply of its last message becomes the
summary (`agentSummary` parameter abstracting the LLM agent run). -/
def run_tracker (jobs : List Dict) (agentSummary : String) : TrackerResult :=
  if jobs.isEmpty then { logged := 0, summary := "No jobs to track." }
  else { logged := (jobs.take 10).length, summary := agentSummary }

/-- C4 (code behavior at the failing input): the Outreach and Tracking
stages handle an empty input without error, but the Scoring Loop does not —
for an empty job list the compiled graph still enters score_job through its
unconditional entry edge and fails on the out-of-range cursor (IndexError,
modelled as `none`), for every oracle and resume. -/
theorem empty_input_stage_behavior :
    (∀ (p : String → Option Dict) (o : Dict → String) (rt : String)
        (chunks : List String),
      run_matcher_graph p o rt chunks [] = none) ∧
    (∀ (name finalOutput : String),
      run_outreach [] name finalOutput = { outreach := [], total_drafted := 0 }) ∧
    (∀ agentSummary : String,
      run_tracker [] agentSummary = { logged := 0, summary := "No jobs to track." }) :=
  ⟨fun _ _ _ _ => rfl, fun _ _ => rfl, fun _ => rfl⟩

/-- C10: for every non-empty matched_jobs input, the Outreach stage returns
one entry per job among the first five input jobs, and every entry carries
the identical outreach_content string — the single combined final output of
the one model run — rather than a per-job message artifact. -/
theorem outreach_entries_share_single_final_output
    (jobs : List Dict) (name finalOutput : String) (hne : jobs ≠ []) :
    (run_outreach jobs name finalOutput).outreach.length = min 5 jobs.length ∧
    (∀ e ∈ (run_outreach jobs name finalOutput).outreach,
      e.outreach_content = finalOutput) ∧
    (run_outreach jobs name finalOutput).outreach.map
        (fun e => (e.company, e.title)) =
      (jobs.take 5).map (fun j => (dictGet j ("company"), dictGet j ("title"))) ∧
    (run_outreach jobs name finalOutput).total_drafted =
      (run_outreach jobs name finalOutput).outreach.length := by
  have hnot : jobs.isEmpty = false := by
    cases jobs with
    | nil => exact absurd rfl hne
    | cons a l => rfl
  refine ⟨?_, ?_, ?_, ?_⟩
  · simp [run_outreach, hnot]
  · intro e he
    simp only [run_outreach, hnot, Bool.false_eq_true, if_false, List.mem_map] at he
    obtain ⟨j, _, hj⟩ := he
    rw [← hj]
  · simp only [run_outreach, hnot, Bool.false_eq_true, if_false, List.map_map]
    rfl
  · simp [run_outreach, hnot]

/-- Witness for C10 at a concrete one-job input. -/
theorem outreach_entries_share_single_final_output_witness :
    (run_outreach [jobA] ("Raga") ("the drafts")).outreach.length = min 5 1 ∧
    (∀ e ∈ (run_outreach [jobA] ("Raga") ("the drafts")).outreach,
      e.outreach_content = "the drafts") :=
  ⟨(outreach_entries_share_single_final_output [jobA] ("Raga") ("the drafts")
      (List.cons_ne_nil _ _)).1,
   (outreach_entries_share_single_final_output [jobA] ("Raga") ("the drafts")
      (List.cons_ne_nil _ _)).2.1⟩

/-! Tracking store: src/memory/job_store.py, persisting the
job_applications table through SQLAlchemy over SQLite; rows are kept in
insertion (rowid) order and ids come from the autoincrement counter. The
agent tools of src/app_agents/tracker.py and src/agents/tracker.py write to
the same table; their ORM class lacks the source and skills columns, which
their create leaves at the model defaults. -/

/-- One row of the job_applications table. -/
structure JobRecord where
  id : Nat
  company : String
  title : String
  url : String
  location : String
  salary : String
  source : String
  match_score : Option Int
  matching_skills : List String
  missing_skills : List String
  status : String
  applied_date : Option Int
  follow_up_date : Option Int
  notes : String
  created_at : Int
  updated_at : Int
deriving Repr, DecidableEq

/-- The persisted table plus the autoincrement counter. -/
structure JobDB where
  rows : List JobRecord
  nextId : Nat
deriving Repr, DecidableEq

/-- Return shape of log_job_to_db. -/
structure LogResult where
  message : String
  id : Nat
deriving Repr, DecidableEq

/-- The dedup key used by log_job_to_db. -/
def sameCompanyTitle (company title : String) : JobRecord → Bool :=
  fun r => r.company == company && r.title == title

/-- The JobApplication row constructed inside log_job_to_db. -/
def newJobRecord (db : JobDB) (now : Int) (company title url : String)
    (match_score : Int) (salary location source : String)
    (matching_skills missing_skills : List String) (notes : String) : JobRecord :=
  { id := db.nextId, company := company, title := title, url := url,
    location := location, salary := salary, source := source,
    match_score := some match_score,
    matching_skills := matching_skills, missing_skills := missing_skills,
    status := "To Apply", applied_date := none, follow_up_date := none,
    notes := notes, created_at := now, updated_at := now }

/-- Model of log_job_to_db (src/memory/job_store.py): checks for an
existing (company, title) record first and returns its id with an
"Already tracked" message instead of inserting; otherwise inserts a fresh
record with status "To Apply". -/
def log_job_to_db (db : JobDB) (now : Int) (company title url : String)
    (match_score : Int) (salary location source : String)
    (matching_skills missing_skills : List String) (notes : String) :
    JobDB × LogResult :=
  match db.rows.find? (sameCompanyTitle company title) with
  | some existing =>
      (db, { message := "Already tracked: " ++ title ++ " at " ++ company,
             id := existing.id })
  | none =>
      let job := newJobRecord db now company title url match_score salary
        location source matching_skills missing_skills notes
      ({ rows := db.rows ++ [job], nextId := db.nextId + 1 },
       { message := "Logged: " ++ title ++ " at " ++ company, id := db.nextId })

/-- Model of the log_job_application tool (src/app_agents/tracker.py):
inserts unconditionally — there is no duplicate check. The returned
confirmation string is abbreviated to its constant stem (the Python
message interpolates score and id into the same sentence). -/
def log_job_application (db : JobDB) (now : Int) (company title url : String)
    (match_score : Int) (salary location notes : String) : JobDB × String :=
  let app : JobRecord :=
    { id := db.nextId, company := company, title := title, url := url,
      location := location, salary := salary, source := "",
      match_score := some match_score, matching_skills := [], missing_skills := [],
      status := "To Apply", applied_date := none, follow_up_date := none,
      notes := notes, created_at := now, updated_at := now }
  ({ rows := db.rows ++ [app], nextId := db.nextId + 1 },
   "Logged: " ++ title ++ " at " ++ company)

/-- C3 (amended): the Tracking Store's create, log_job_to_db, is idempotent
by (company, title): re-logging the same pair leaves the store unchanged,
returns the first call's identifier and reports "Already tracked"; and a
store with at most one live record for the pair still has at most one after
a create. (The agent-tool create log_job_application is not idempotent; see
the counterexample.) -/
theorem log_job_to_db_idempotent_by_company_title
    (db : JobDB) (now now2 ms ms2 : Int)
    (company title url url2 sal sal2 loc loc2 src src2 notes notes2 : String)
    (msk msk2 mssk mssk2 : List String) :
    (log_job_to_db (log_job_to_db db now company title url ms sal loc src msk mssk notes).1
        now2 company title url2 ms2 sal2 loc2 src2 msk2 mssk2 notes2).1
      = (log_job_to_db db now company title url ms sal loc src msk mssk notes).1 ∧
    (log_job_to_db (log_job_to_db db now company title url ms sal loc src msk mssk notes).1
        now2 company title url2 ms2 sal2 loc2 src2 msk2 mssk2 notes2).2.id
      = (log_job_to_db db now company title url ms sal loc src msk mssk notes).2.id ∧
    (log_job_to_db (log_job_to_db db now company title url ms sal loc src msk mssk notes).1
        now2 company title url2 ms2 sal2 loc2 src2 msk2 mssk2 notes2).2.message
      = "Already tracked: " ++ title ++ " at " ++ company ∧
    (db.rows.countP (sameCompanyTitle company title) ≤ 1 →
      (log_job_to_db db now company title url ms sal loc src msk mssk notes).1.rows.countP
        (sameCompanyTitle company title) ≤ 1) := by
  cases hf : db.rows.find? (sameCompanyTitle company title) with
  | some ex =>
    have h1 : log_job_to_db db now company title url ms sal loc src msk mssk notes
        = (db, { message := "Already tracked: " ++ title ++ " at " ++ company,
                 id := ex.id }) := by
      simp [log_job_to_db, hf]
    rw [h1]
    simp [log_job_to_db, hf]
  | none =>
    have hkey : sameCompanyTitle company title
        (newJobRecord db now company title url ms sal loc src msk mssk notes) = true := by
      simp [sameCompanyTitle, newJobRecord]
    have h1 : log_job_to_db db now company title url ms sal loc src msk mssk notes
        = ({ rows := db.rows ++
              [newJobRecord db now company title url ms sal loc src msk mssk notes],
             nextId := db.nextId + 1 },
           { message := "Logged: " ++ title ++ " at " ++ company, id := db.nextId }) := by
      simp [log_job_to_db, hf]
    have hfind2 :
        (db.rows ++ [newJobRecord db now company title url ms sal loc src msk mssk notes]).find?
          (sameCompanyTitle company title)
        = some (newJobRecord db now company title url ms sal loc src msk mssk notes) := by
      rw [List.find?_append, hf]
      simp [List.find?, hkey]
    have hzero : db.rows.countP (sameCompanyTitle company title) = 0 := by
      rw [List.countP_eq_zero]
      intro r hr
      exact List.find?_eq_none.mp hf r hr
    have hid : (newJobRecord db now company title url ms sal loc src msk mssk notes).id
        = db.nextId := rfl
    rw [h1]
    refine ⟨?_, ?_, ?_, ?_⟩
    · simp only [log_job_to_db]
      rw [hfind2]
    · simp only [log_job_to_db]
      rw [hfind2]
      simp [hid]
    · simp only [log_job_to_db]
      rw [hfind2]
    · intro _
      simp [List.countP_append, hzero, List.countP_cons, hkey]

/-- Empty store used by the concrete tracking scenarios. -/
def emptyDB : JobDB := { rows := [], nextId := 1 }

/-- Witness for C3: re-logging (Freshworks, EM) into an initially empty
store changes nothing and returns id 1 with the "Already tracked" signal. -/
theorem log_job_to_db_idempotent_witness :
    (log_job_to_db (log_job_to_db emptyDB 0 ("Freshworks") ("EM") ("u") 85 ("") ("") ("") [] [] ("")).1
        7 ("Freshworks") ("EM") ("v") 90 ("") ("") ("") [] [] ("")).1
      = (log_job_to_db emptyDB 0 ("Freshworks") ("EM") ("u") 85 ("") ("") ("") [] [] ("")).1 ∧
    (log_job_to_db (log_job_to_db emptyDB 0 ("Freshworks") ("EM") ("u") 85 ("") ("") ("") [] [] ("")).1
        7 ("Freshworks") ("EM") ("v") 90 ("") ("") ("") [] [] ("")).2.id = 1 ∧
    emptyDB.rows.countP (sameCompanyTitle ("Freshworks") ("EM")) ≤ 1 ∧
    (log_job_to_db emptyDB 0 ("Freshworks") ("EM") ("u") 85 ("") ("") ("") [] [] ("")).1.rows.countP
      (sameCompanyTitle ("Freshworks") ("EM")) ≤ 1 :=
  ⟨(log_job_to_db_idempotent_by_company_title emptyDB 0 7 85 90 ("Freshworks") ("EM")
      ("u") ("v") ("") ("") ("") ("") ("") ("") ("") ("") [] [] [] []).1,
   by
    have h := (log_job_to_db_idempotent_by_company_title emptyDB 0 7 85 90 ("Freshworks") ("EM")
      ("u") ("v") ("") ("") ("") ("") ("") ("") ("") ("") [] [] [] []).2.1
    rw [h]
    rfl,
   by decide,
   (log_job_to_db_idempotent_by_company_title emptyDB 0 7 85 90 ("Freshworks") ("EM")
      ("u") ("v") ("") ("") ("") ("") ("") ("") ("") ("") [] [] [] []).2.2.2 (by decide)⟩

/-- Counterexample for C3 as stated: the agent-tool create
(log_job_application, src/app_agents/tracker.py) has no duplicate check, so
logging the same (company, title) a second time inserts a second live
record for the pair instead of returning the first identifier. -/
theorem log_job_application_inserts_duplicate_counterexample :
    ((log_job_application (log_job_application emptyDB 0 ("Freshworks") ("EM") ("u") 85
        ("") ("") ("")).1 0 ("Freshworks") ("EM") ("u") 85 ("") ("") ("")).1).rows.countP
      (sameCompanyTitle ("Freshworks") ("EM")) = 2 := by
  decide

/-- Outcome of a status update; the rejection carries the enumerated valid
set exactly as the Python error message interpolates the list. -/
inductive UpdateResult where
  | invalid (valid : List String)
  | notFound (company : String)
  | updated (company status : String)
deriving Repr, DecidableEq

/-- The fixed status enumeration of update_job_status and
update_application_status. -/
def valid_statuses : List String :=
  ["To Apply", "Applied", "Phone Screen", "Interview", "Offer", "Rejected",
   "Withdrawn"]

/-- Lookup used by the updates: the most-recently-created record for the
company (`order_by(created_at.desc()).first()`); the fold keeps the first
row among created_at ties, a tie order SQL leaves unspecified. -/
def latestByCompany (rows : List JobRecord) (company : String) : Option JobRecord :=
  (rows.filter (fun r => r.company == company)).foldl
    (fun acc r =>
      match acc with
      | none => some r
      | some b => if b.created_at < r.created_at then some r else some b) none

/-- Rendering of `strftime("%Y-%m-%d")`: an injective-per-day stand-in for
the calendar date of a timestamp. -/
def fmtDay (t : Int) : String := toString (t.fdiv 86400)

/-- Model of Python str.strip(): drop whitespace from both ends. -/
def pyStrip (s : String) : String :=
  String.mk (((s.data.dropWhile Char.isWhitespace).reverse.dropWhile
    Char.isWhitespace).reverse)

/-- Model of update_job_status (src/memory/job_store.py): validates the new
status against the fixed enumeration before touching the store; rejects
unknown values carrying the valid set; stamps applied_date on "Applied";
appends a timestamped note line (then strips). -/
def update_job_status (db : JobDB) (now : Int) (company new_status notes : String) :
    JobDB × UpdateResult :=
  if new_status ∈ valid_statuses then
    match latestByCompany db.rows company with
    | none => (db, UpdateResult.notFound company)
    | some job =>
        let job2 := { job with
          status := new_status,
          updated_at := now,
          applied_date := if new_status == "Applied" then some now else job.applied_date,
          notes := if notes == "" then job.notes
            else pyStrip (job.notes ++ "\n[" ++ fmtDay now ++ "] " ++ notes) }
        ({ db with rows := db.rows.map (fun r => if r.id == job.id then job2 else r) },
         UpdateResult.updated company new_status)
  else (db, UpdateResult.invalid valid_statuses)

/-- Model of the update_application_status tool (src/app_agents/tracker.py):
same validation-first shape; no updated_at column and no strip on the
appended note line. -/
def update_application_status (db : JobDB) (now : Int)
    (company new_status notes : String) : JobDB × UpdateResult :=
  if new_status ∈ valid_statuses then
    match latestByCompany db.rows company with
    | none => (db, UpdateResult.notFound company)
    | some app =>
        let app2 := { app with
          status := new_status,
          applied_date := if new_status == "Applied" then some now else app.applied_date,
          notes := if notes == "" then app.notes
            else app.notes ++ "\n[" ++ fmtDay now ++ "] " ++ notes }
        ({ db with rows := db.rows.map (fun r => if r.id == app.id then app2 else r) },
         UpdateResult.updated company new_status)
  else (db, UpdateResult.invalid valid_statuses)

/-- C6: a status update with a value outside the seven-value enumeration is
rejected with the list of valid values and mutates nothing — the store
comes back identical — in both update_job_status and the
update_application_status tool; any value inside the enumeration is
accepted (reported as updated) whatever the current status of the looked-up
record is. -/
theorem invalid_status_rejected_without_mutation
    (db : JobDB) (now : Int) (company new_status notes : String) :
    (new_status ∉ valid_statuses →
      update_job_status db now company new_status notes
        = (db, UpdateResult.invalid valid_statuses) ∧
      update_application_status db now company new_status notes
        = (db, UpdateResult.invalid valid_statuses)) ∧
    (new_status ∈ valid_statuses →
      ∀ job : JobRecord, latestByCompany db.rows company = some job →
        (update_job_status db now company new_status notes).2
          = UpdateResult.updated company new_status ∧
        (update_application_status db now company new_status notes).2
          = UpdateResult.updated company new_status) := by
  constructor
  · intro h
    exact ⟨by simp [update_job_status, h], by simp [update_application_status, h]⟩
  · intro h job hj
    exact ⟨by simp [update_job_status, h, hj],
           by simp [update_application_status, h, hj]⟩

/-- A concrete tracked record and store for the update scenarios. -/
def recFresh : JobRecord :=
  { id := 1, company := "Freshworks", title := "EM", url := "", location := "",
    salary := "", source := "", match_score := some 85, matching_skills := [],
    missing_skills := [], status := "To Apply", applied_date := none,
    follow_up_date := none, notes := "", created_at := 0, updated_at := 0 }

def dbFresh : JobDB := { rows := [recFresh], nextId := 2 }

/-- Witness for C6: "Ghosted" is rejected with the valid set and the store
untouched; "Offer" is accepted from status "To Apply". -/
theorem invalid_status_rejected_without_mutation_witness :
    update_job_status dbFresh 5 ("Freshworks") ("Ghosted") ("")
      = (dbFresh, UpdateResult.invalid valid_statuses) ∧
    update_application_status dbFresh 5 ("Freshworks") ("Ghosted") ("")
      = (dbFresh, UpdateResult.invalid valid_statuses) ∧
    (update_job_status dbFresh 5 ("Freshworks") ("Offer") ("")).2
      = UpdateResult.updated ("Freshworks") ("Offer") :=
  ⟨((invalid_status_rejected_without_mutation dbFresh 5 ("Freshworks") ("Ghosted") ("")).1
      (by decide)).1,
   ((invalid_status_rejected_without_mutation dbFresh 5 ("Freshworks") ("Ghosted") ("")).1
      (by decide)).2,
   ((invalid_status_rejected_without_mutation dbFresh 5 ("Freshworks") ("Offer") ("")).2
      (by decide) recFresh rfl).1⟩

/-- One entry of the top_matches list built by get_jobs_summary. -/
structure TopMatch where
  company : String
  title : String
  match_score : Int
  status : String
  url : String
deriving Repr, DecidableEq

/-- Result of get_jobs_summary. The avg_match_score field (a rounded float,
presentation only) is not modelled. -/
structure JobsSummary where
  total : Nat
  by_status : List (String × Nat)
  top_matches : List TopMatch
deriving Repr, DecidableEq

/-- Python dict counter bump: `d[k] = d.get(k, 0) + 1`, insertion-ordered. -/
def bumpCount (m : List (String × Nat)) (k : String) : List (String × Nat) :=
  match m with
  | [] => [(k, 1)]
  | (k0, n) :: rest =>
      if k0 == k then (k0, n + 1) :: rest else (k0, n) :: bumpCount rest k

/-- Status defaulting in the summary loop: `job.status or "To Apply"`. -/
def statusOrDefault (r : JobRecord) : String :=
  if r.status == "" then ("To Apply") else r.status

/-- The top-match condition `job.match_score and job.match_score >= 75`
(Python truthiness: a NULL or zero score is falsy). -/
def isHighMatch (r : JobRecord) : Bool :=
  match r.match_score with
  | some s => !(s == 0) && decide (75 ≤ s)
  | none => false

/-- The dict appended to top_matches (its match_score is known non-NULL in
that branch; `getD 0` is never the default there). -/
def topOf (r : JobRecord) : TopMatch :=
  { company := r.company, title := r.title, match_score := r.match_score.getD 0,
    status := r.status, url := r.url }

/-- One iteration of the get_jobs_summary loop over the rows. -/
def summaryStep (acc : List (String × Nat) × List TopMatch) (r : JobRecord) :
    List (String × Nat) × List TopMatch :=
  (bumpCount acc.1 (statusOrDefault r),
   if isHighMatch r then acc.2 ++ [topOf r] else acc.2)

/-- Model of get_jobs_summary (src/memory/job_store.py): one pass over all
rows accumulating by_status counts and the high-match list, then a stable
descending sort of top_matches by score. -/
def get_jobs_summary (db : JobDB) : JobsSummary :=
  let acc := db.rows.foldl summaryStep ([], [])
  { total := db.rows.length, by_status := acc.1,
    top_matches := sortDesc (fun t => t.match_score) acc.2 }

theorem bumpCount_sum (m : List (String × Nat)) (k : String) :
    ((bumpCount m k).map (fun kv => kv.2)).sum = (m.map (fun kv => kv.2)).sum + 1 := by
  induction m with
  | nil => rfl
  | cons kv rest ih =>
    cases kv with
    | mk k0 n =>
      by_cases h : k0 == k <;> simp [bumpCount, h, ih] <;> omega

theorem summary_fold_fst (rows : List JobRecord) :
    ∀ acc : List (String × Nat) × List TopMatch,
      (rows.foldl summaryStep acc).1
        = rows.foldl (fun m r => bumpCount m (statusOrDefault r)) acc.1 := by
  induction rows with
  | nil => intro acc; rfl
  | cons r rows ih =>
    intro acc
    rw [List.foldl_cons, List.foldl_cons, ih]
    rfl

theorem summary_fold_snd (rows : List JobRecord) :
    ∀ acc : List (String × Nat) × List TopMatch,
      (rows.foldl summaryStep acc).2 = acc.2 ++ (rows.filter isHighMatch).map topOf := by
  induction rows with
  | nil => intro acc; simp
  | cons r rows ih =>
    intro acc
    rw [List.foldl_cons, ih]
    by_cases h : isHighMatch r <;>
      simp [summaryStep, h, List.filter_cons]

theorem bump_fold_sum (rows : List JobRecord) :
    ∀ m : List (String × Nat),
      ((rows.foldl (fun m r => bumpCount m (statusOrDefault r)) m).map
          (fun kv => kv.2)).sum
        = (m.map (fun kv => kv.2)).sum + rows.length := by
  induction rows with
  | nil => intro m; simp
  | cons r rows ih =>
    intro m
    rw [List.foldl_cons, ih, bumpCount_sum]
    simp only [List.length_cons]
    omega

/-- C8: the summary is a faithful aggregation: the by_status counts sum to
the number of stored records (each record counted under exactly one
status), and top_matches consists of exactly the records whose match_score
is at least the high-relevance threshold 75, in descending score order. -/
theorem summary_counts_all_and_lists_high_matches_sorted (db : JobDB) :
    (get_jobs_summary db).total = db.rows.length ∧
    ((get_jobs_summary db).by_status.map (fun kv => kv.2)).sum = db.rows.length ∧
    ((get_jobs_summary db).top_matches).Perm
      ((db.rows.filter (fun r =>
          match r.match_score with
          | some s => decide (75 ≤ s)
          | none => false)).map topOf) ∧
    ((get_jobs_summary db).top_matches).Pairwise
      (fun a b => b.match_score ≤ a.match_score) := by
  have hpred : (fun r : JobRecord =>
      match r.match_score with
      | some s => decide (75 ≤ s)
      | none => false) = isHighMatch := by
    funext r
    cases hms : r.match_score with
    | none => simp [isHighMatch, hms]
    | some s =>
      simp only [isHighMatch, hms]
      by_cases h : 75 ≤ s
      · have hnz : ¬ (s == 0) = true := by
          intro h0
          have : s = 0 := beq_iff_eq.mp h0
          omega
        simp [h, hnz]
      · simp [h]
  refine ⟨rfl, ?_, ?_, ?_⟩
  · show ((db.rows.foldl summaryStep ([], [])).1.map (fun kv => kv.2)).sum = _
    rw [summary_fold_fst, bump_fold_sum]
    simp
  · show (sortDesc (fun t => t.match_score)
        (db.rows.foldl summaryStep ([], [])).2).Perm _
    rw [hpred]
    have h2 : (db.rows.foldl summaryStep ([], [])).2
        = (db.rows.filter isHighMatch).map topOf := by
      simpa using summary_fold_snd db.rows ([], [])
    have hp := sortDesc_perm (fun t : TopMatch => t.match_score)
      ((db.rows.foldl summaryStep ([], [])).2)
    exact hp.trans (by rw [h2])
  · exact sortDesc_sorted _ _

/-- Model of `(now - ref).days` on datetimes: floor division of the
difference in seconds, matching Python timedelta semantics. -/
def daysBetween (ref now : Int) : Int := (now - ref).fdiv 86400

/-- The "active, awaiting-response" status subset of the reminder reads. -/
def activeStatus (st : String) : Bool :=
  st == "Applied" || st == "Phone Screen" || st == "Interview"

/-- One reminder entry of get_pending_followups. -/
structure Reminder where
  company : String
  title : String
  status : String
  days_elapsed : Int
  url : String
  action : String
deriving Repr, DecidableEq

/-- The reminder dict built by get_pending_followups for a record, with the
reference date `applied_date or created_at` (datetimes are truthy and
created_at is always set by the ORM default, so `or` is null-coalescing). -/
def mkReminder (now : Int) (r : JobRecord) : Reminder :=
  { company := r.company, title := r.title, status := r.status,
    days_elapsed := daysBetween (r.applied_date.getD r.created_at) now,
    url := r.url, action := "Send follow-up message" }

/-- Model of get_pending_followups (src/memory/job_store.py): filter the
active statuses, emit an entry when the days elapsed since applied_date
(else created_at) reach 5, and sort the entries by days_elapsed descending.
The read is a pure function of the store — it mutates nothing. -/
def get_pending_followups (db : JobDB) (now : Int) : List Reminder :=
  let jobs := db.rows.filter (fun r => activeStatus r.status)
  let reminders := jobs.filterMap (fun r =>
    if 5 ≤ daysBetween (r.applied_date.getD r.created_at) now
    then some (mkReminder now r) else none)
  sortDesc (fun e => e.days_elapsed) reminders

/-- One entry of the get_followup_reminders tool output. -/
structure FollowupEntry where
  company : String
  status : String
  days_since_action : Int
  action : String
deriving Repr, DecidableEq

/-- The days computed by the tool: from applied_date only — a record with
no applied_date counts as 0 days (`... if app.applied_date else 0`). -/
def appliedDays (now : Int) (r : JobRecord) : Int :=
  match r.applied_date with
  | some d => daysBetween d now
  | none => 0

/-- The entry dict built by the get_followup_reminders tool. -/
def mkFollowup (now : Int) (r : JobRecord) : FollowupEntry :=
  { company := r.company, status := r.status,
    days_since_action := appliedDays now r, action := "Send follow-up message" }

/-- Model of the get_followup_reminders tool (src/agents/tracker.py and
src/app_agents/tracker.py): filter the active statuses and emit an entry
when the days since applied_date reach 5; no created_at fallback and no
sort. The JSON rendering and the "No pending follow-ups." presentation
strings are not modelled. -/
def get_followup_reminders (db : JobDB) (now : Int) : List FollowupEntry :=
  (db.rows.filter (fun r => activeStatus r.status)).filterMap (fun r =>
    if 5 ≤ appliedDays now r then some (mkFollowup now r) else none)

theorem mem_get_pending_followups (db : JobDB) (now : Int) (e : Reminder) :
    e ∈ get_pending_followups db now ↔
      ∃ r : JobRecord, r ∈ db.rows ∧ activeStatus r.status = true ∧
        5 ≤ daysBetween (r.applied_date.getD r.created_at) now ∧
        e = mkReminder now r := by
  unfold get_pending_followups
  rw [sortDesc_mem, List.mem_filterMap]
  constructor
  · rintro ⟨r, hr, hf⟩
    have hrm := List.mem_filter.mp hr
    by_cases hc : 5 ≤ daysBetween (r.applied_date.getD r.created_at) now
    · rw [if_pos hc] at hf
      exact ⟨r, hrm.1, hrm.2, hc, (Option.some.inj hf).symm⟩
    · rw [if_neg hc] at hf
      cases hf
  · rintro ⟨r, hr, hact, hc, he⟩
    refine ⟨r, List.mem_filter.mpr ⟨hr, hact⟩, ?_⟩
    rw [if_pos hc, he]

theorem mem_get_followup_reminders (db : JobDB) (now : Int) (e : FollowupEntry) :
    e ∈ get_followup_reminders db now ↔
      ∃ r : JobRecord, r ∈ db.rows ∧ activeStatus r.status = true ∧
        5 ≤ appliedDays now r ∧ e = mkFollowup now r := by
  unfold get_followup_reminders
  rw [List.mem_filterMap]
  constructor
  · rintro ⟨r, hr, hf⟩
    have hrm := List.mem_filter.mp hr
    by_cases hc : 5 ≤ appliedDays now r
    · rw [if_pos hc] at hf
      exact ⟨r, hrm.1, hrm.2, hc, (Option.some.inj hf).symm⟩
    · rw [if_neg hc] at hf
      cases hf
  · rintro ⟨r, hr, hact, hc, he⟩
    refine ⟨r, List.mem_filter.mpr ⟨hr, hact⟩, ?_⟩
    rw [if_pos hc, he]

/-- A record with status Applied whose applied_date is time 0. -/
def recApplied : JobRecord :=
  { recFresh with id := 3, status := "Applied", applied_date := some 0 }

def dbApplied : JobDB := { rows := [recApplied], nextId := 4 }

/-- A record in an active status that never got an applied_date stamp
(status moved straight to Interview), created 10 days before `now`. -/
def recInterviewNoDate : JobRecord :=
  { recFresh with
    id := 4, status := "Interview", applied_date := none, created_at := 0 }

def dbInterviewNoDate : JobDB := { rows := [recInterviewNoDate], nextId := 5 }

/-- C7 (amended): the store's reminders read, get_pending_followups,
behaves as claimed — it emits an entry exactly for records whose status is
in the set Applied, Phone Screen, Interview with days elapsed (from
applied_date if set, else created_at) at least 5; a record applied 6 days
ago appears with days_elapsed 6 and the same record at 4 days does not
appear; both reads are pure. The agent-tool read, get_followup_reminders,
instead computes days from applied_date only, counting a missing
applied_date as 0 days, so such records never appear there. -/
theorem reminders_select_active_records_five_days_stale :
    (∀ (db : JobDB) (now : Int) (e : Reminder),
      e ∈ get_pending_followups db now ↔
        ∃ r : JobRecord, r ∈ db.rows ∧ activeStatus r.status = true ∧
          5 ≤ daysBetween (r.applied_date.getD r.created_at) now ∧
          e = mkReminder now r) ∧
    (∀ (db : JobDB) (now : Int) (e : FollowupEntry),
      e ∈ get_followup_reminders db now ↔
        ∃ r : JobRecord, r ∈ db.rows ∧ activeStatus r.status = true ∧
          5 ≤ appliedDays now r ∧ e = mkFollowup now r) ∧
    get_pending_followups dbApplied (6 * 86400) = [mkReminder (6 * 86400) recApplied] ∧
    (mkReminder (6 * 86400) recApplied).days_elapsed = 6 ∧
    get_pending_followups dbApplied (4 * 86400) = [] :=
  ⟨mem_get_pending_followups, mem_get_followup_reminders, rfl, rfl, rfl⟩

/-- Counterexample for C7 as stated: for a record in an active status with
no applied_date, created 10 days ago, the claim's elapsed-days rule (fall
back to created_at) demands a reminder, and the store read emits one, but
the cited agent-tool read get_followup_reminders emits nothing. -/
theorem followup_reminders_ignore_created_at_counterexample :
    activeStatus recInterviewNoDate.status = true ∧
    daysBetween (recInterviewNoDate.applied_date.getD recInterviewNoDate.created_at)
      (10 * 86400) = 10 ∧
    get_pending_followups dbInterviewNoDate (10 * 86400)
      = [mkReminder (10 * 86400) recInterviewNoDate] ∧
    get_followup_reminders dbInterviewNoDate (10 * 86400) = [] :=
  ⟨rfl, rfl, rfl, rfl⟩

/-! Orchestrator boundary: src/app_agents/orchestrator.py
(JobHuntOrchestrator.run_async) and src/agents/orchestrator.py
(JobHuntOrchestrator.run). The ADK runner is abstracted as the list of
events it yields; each event carries an author, a final-response flag and
optional content parts. -/

/-- One part of an event's content. -/
structure MsgPart where
  text : Option String
deriving Repr, DecidableEq

/-- One event yielded by the ADK runner. -/
structure AdkEvent where
  author : String
  is_final_response : Bool
  content : Option (List MsgPart)
deriving Repr, DecidableEq

/-- Text accumulation loop of run_async: for every final-response event
with a non-None content holding a non-empty parts list, append each
part's text (`part.text or ""`). -/
def collect_final_text (events : List AdkEvent) : String :=
  events.foldl (fun acc e =>
    match e.content with
    | some parts =>
        if e.is_final_response && !parts.isEmpty then
          acc ++ String.join (parts.map (fun p => p.text.getD ("")))
        else acc
    | none => acc) ("")

/-- The explicit fallback summary of run_async. -/
def fallback_summary : String := "Task complete, but no summary was generated."

/-- Model of JobHuntOrchestrator.run_async (src/app_agents/orchestrator.py)
after the event loop: when no final text was collected, fall back to the
session state (`sessionState` models str(session.state.get("summary") or
session.state) of a successfully fetched session); strip; and return the
explicit fallback message instead of an empty summary. The returned dict
carries only this summary string. -/
def run_async (events : List AdkEvent) (sessionState : Option String) : String :=
  let rt := collect_final_text events
  let rt2 :=
    if rt == "" then
      match sessionState with
      | some st => st
      | none => rt
    else rt
  let full_response := pyStrip rt2
  if full_response == "" then fallback_summary else full_response

/-- Model of JobHuntOrchestrator.run (src/agents/orchestrator.py): same
collection loop but without the non-empty-parts guard, without the session
fallback, without strip and without any fallback message; the summary is
whatever text accumulated, possibly empty. (A part whose text is None
would raise TypeError there; such parts are outside this model.) -/
def agents_orchestrator_run (events : List AdkEvent) : String :=
  events.foldl (fun acc e =>
    match e.content with
    | some parts =>
        if e.is_final_response then
          acc ++ String.join (parts.map (fun p => p.text.getD ("")))
        else acc
    | none => acc) ("")

/-- C9 (amended): the app_agents orchestrator's run_async always returns a
result whose summary is non-empty, and whenever the run produced no
summary text at all it returns the explicit fallback message; the agents
orchestrator's run has no such fallback and returns an empty summary when
the run yields no final-response text (see the counterexample). -/
theorem run_async_summary_never_empty :
    (∀ (events : List AdkEvent) (sessionState : Option String),
      run_async events sessionState ≠ "") ∧
    (∀ (events : List AdkEvent) (sessionState : Option String),
      collect_final_text events = "" → sessionState = none →
      run_async events sessionState = fallback_summary) := by
  have key : ∀ s : String, (if s == "" then fallback_summary else s) ≠ "" := by
    intro s
    by_cases hs : s == ""
    · rw [if_pos hs]
      intro h
      exact absurd (congrArg String.length h) (by decide)
    · rw [if_neg hs]
      intro h
      rw [h] at hs
      exact hs rfl
  constructor
  · intro events st
    simp only [run_async]
    apply key
  · intro events st h1 h2
    rw [h2]
    simp only [run_async, h1]
    rfl

/-- Witness for C9: an event stream with no final text and no recoverable
session state yields exactly the fallback message. -/
theorem run_async_summary_never_empty_witness :
    run_async [] none = fallback_summary :=
  (run_async_summary_never_empty).2 [] none rfl rfl

/-- Counterexample for C9 as stated: the agents orchestrator's run, on a
run that yields no final-response events, returns an empty summary — an
empty value rather than a non-empty fallback message. -/
theorem agents_orchestrator_run_returns_empty_counterexample :
    agents_orchestrator_run [] = "" := rfl

end JobHunt
